import Mathlib

/-!
Verification development for the freepik backend relay (src/main.py).

Strings are modelled as `List Char`.  Each definition is a shallow
embedding of the corresponding Python code; doc comments name the
source lines.
-/

namespace Freepik

/-- Python whitespace characters, as stripped by `str.strip()`:
space, tab, newline, carriage return, vertical tab, form feed. -/
def pyWs (c : Char) : Bool :=
  c == ' ' || c == '\t' || c == '\n' || c == '\r' ||
  c == Char.ofNat 11 || c == Char.ofNat 12

/-- Python `str.strip()` on a character list. -/
def pyStrip (l : List Char) : List Char :=
  List.rdropWhile pyWs (List.dropWhile pyWs l)

/-- Python `str.split(sep)` for a one-character separator: always returns
at least one (possibly empty) field, one more field per separator. -/
def splitOnC (sep : Char) : List Char → List (List Char)
  | [] => [[]]
  | c :: rest =>
    if c == sep then [] :: splitOnC sep rest
    else
      match splitOnC sep rest with
      | [] => [[c]]
      | l :: ls => (c :: l) :: ls

/-- The per-line body of the comprehension in `parse_cookies_for_header`
(src/main.py line 54), applied to an already-trimmed line: discard if
empty or starting with a hash; split on tab; keep only 7-field lines;
format field 5 and field 6 (0-indexed) as a name=value pair. -/
def trimmedLineOut (t : List Char) : Option (List Char) :=
  if t.isEmpty then none
  else if t.headD ' ' == '#' then none
  else if (splitOnC '\t' t).length == 7 then
    some ((splitOnC '\t' t).getD 5 [] ++ '=' :: (splitOnC '\t' t).getD 6 [])
  else none

/-- Per-line processing including the `line.strip()` calls of the source. -/
def cookieLineOut (line : List Char) : Option (List Char) :=
  trimmedLineOut (pyStrip line)

/-- Python `"; ".join(...)`. -/
def joinSemi : List (List Char) → List Char
  | [] => []
  | [p] => p
  | p :: q :: rest => p ++ ';' :: ' ' :: joinSemi (q :: rest)

/-- `parse_cookies_for_header` (src/main.py lines 51-54): empty string on a
falsy blob; otherwise strip the whole blob, split it on newlines, process
each line, and join the formatted pairs with a semicolon and a space. -/
def parse_cookies_for_header (s : List Char) : List Char :=
  if s.isEmpty then []
  else joinSemi ((splitOnC '\n' (pyStrip s)).filterMap cookieLineOut)

/-- Reference cookie-parsing algorithm, worded as the spec states it
(spec 4.2): split blob into lines by newline; trim each line; discard
empty lines and lines starting with a hash; split each remaining line on
tab; keep only lines with exactly 7 fields; format field index 5 and
field index 6 as name=value; join with a semicolon and a space. -/
def refCookieKept (s : List Char) : List (List Char) :=
  ((splitOnC '\n' s).map pyStrip).filterMap trimmedLineOut

/-- Reference parser: the kept pairs joined with a semicolon and a space. -/
def refParse (s : List Char) : List Char :=
  joinSemi (refCookieKept s)

/-- The pairs kept from a blob, before the final join. -/
def keptOf (l : List Char) : List (List Char) :=
  (splitOnC '\n' l).filterMap cookieLineOut

theorem splitOnC_ne_nil (sep : Char) (l : List Char) : splitOnC sep l ≠ [] := by
  cases l with
  | nil => simp [splitOnC]
  | cons c rest =>
    simp only [splitOnC]
    split
    · simp
    · split <;> simp

theorem pyStrip_cons_ws {c : Char} (l : List Char) (h : pyWs c = true) :
    pyStrip (c :: l) = pyStrip l := by
  simp [pyStrip, List.dropWhile_cons, h]

theorem pyStrip_concat_ws {c : Char} (l : List Char) (h : pyWs c = true) :
    pyStrip (l ++ [c]) = pyStrip l := by
  unfold pyStrip
  rw [List.dropWhile_append]
  split
  next hh =>
    rw [List.isEmpty_iff] at hh
    rw [hh]
    simp [List.dropWhile_cons, h]
  next hh =>
    exact List.rdropWhile_concat_pos pyWs _ c h

theorem cookieLineOut_nil : cookieLineOut [] = none := by decide

theorem cookieLineOut_cons_ws {c : Char} (l : List Char) (h : pyWs c = true) :
    cookieLineOut (c :: l) = cookieLineOut l := by
  unfold cookieLineOut
  rw [pyStrip_cons_ws l h]

theorem cookieLineOut_concat_ws {c : Char} (l : List Char) (h : pyWs c = true) :
    cookieLineOut (l ++ [c]) = cookieLineOut l := by
  unfold cookieLineOut
  rw [pyStrip_concat_ws l h]

theorem keptOf_cons_ws {c : Char} (l : List Char) (h : pyWs c = true) :
    keptOf (c :: l) = keptOf l := by
  by_cases hnl : c = '\n'
  · subst hnl
    simp [keptOf, splitOnC, List.filterMap_cons, cookieLineOut_nil]
  · have hb : (c == '\n') = false := by simp [hnl]
    obtain ⟨h', t', hsplit⟩ := List.exists_cons_of_ne_nil (splitOnC_ne_nil '\n' l)
    have hstep : splitOnC '\n' (c :: l) = (c :: h') :: t' := by
      simp [splitOnC, hb, hsplit]
    unfold keptOf
    rw [hstep, hsplit, List.filterMap_cons, List.filterMap_cons,
      cookieLineOut_cons_ws h' h]

theorem keptOf_dropWhile (l : List Char) :
    keptOf (List.dropWhile pyWs l) = keptOf l := by
  induction l with
  | nil => rfl
  | cons c rest ih =>
    rw [List.dropWhile_cons]
    split
    next h =>
      rw [keptOf_cons_ws rest h]
      exact ih
    next h => rfl

theorem splitOnC_concat_sep (sep : Char) (l : List Char) :
    splitOnC sep (l ++ [sep]) = splitOnC sep l ++ [[]] := by
  induction l with
  | nil => simp [splitOnC]
  | cons a rest ih =>
    by_cases ha : a = sep
    · subst ha
      simp [splitOnC, ih]
    · have hb : (a == sep) = false := by simp [ha]
      obtain ⟨h', t', hsplit⟩ := List.exists_cons_of_ne_nil (splitOnC_ne_nil sep rest)
      simp only [List.cons_append, splitOnC, hb, List.append_eq]
      rw [ih, hsplit]
      simp

theorem splitOnC_concat_ne (sep c : Char) (l : List Char) (hc : (c == sep) = false) :
    ∃ i last, splitOnC sep l = i ++ [last] ∧
      splitOnC sep (l ++ [c]) = i ++ [last ++ [c]] := by
  induction l with
  | nil => exact ⟨[], [], by simp [splitOnC], by simp [splitOnC, hc]⟩
  | cons a rest ih =>
    obtain ⟨i, last, h1, h2⟩ := ih
    by_cases ha : a = sep
    · subst ha
      exact ⟨[] :: i, last, by simp [splitOnC, h1], by simp [splitOnC, h2]⟩
    · have hb : (a == sep) = false := by simp [ha]
      cases i with
      | nil =>
        refine ⟨[], a :: last, ?_, ?_⟩
        · simp only [splitOnC, hb]
          rw [List.nil_append] at h1
          rw [h1]
          simp
        · simp only [List.cons_append, splitOnC, hb, List.append_eq]
          rw [List.nil_append] at h2
          rw [h2]
          simp
      | cons i0 irest =>
        refine ⟨(a :: i0) :: irest, last, ?_, ?_⟩
        · simp only [splitOnC, hb]
          rw [h1]
          simp
        · simp only [List.cons_append, splitOnC, hb, List.append_eq]
          rw [h2]
          simp

theorem keptOf_concat_ws {c : Char} (l : List Char) (h : pyWs c = true) :
    keptOf (l ++ [c]) = keptOf l := by
  by_cases hnl : c = '\n'
  · subst hnl
    unfold keptOf
    rw [splitOnC_concat_sep, List.filterMap_append]
    simp [cookieLineOut_nil]
  · have hb : (c == '\n') = false := by simp [hnl]
    obtain ⟨i, last, h1, h2⟩ := splitOnC_concat_ne '\n' c l hb
    unfold keptOf
    rw [h1, h2, List.filterMap_append, List.filterMap_append]
    congr 1
    simp [List.filterMap_cons, cookieLineOut_concat_ws last h]

theorem keptOf_append_ws (u : List Char) : ∀ l : List Char,
    (∀ c ∈ u, pyWs c = true) → keptOf (l ++ u) = keptOf l := by
  induction u with
  | nil => intro l _; simp
  | cons c u' ih =>
    intro l hall
    have h1 : pyWs c = true := hall c (by simp)
    have hre : l ++ c :: u' = (l ++ [c]) ++ u' := by simp
    rw [hre, ih (l ++ [c]) (fun d hd => hall d (by simp [hd])), keptOf_concat_ws l h1]

theorem rdrop_rtake (l : List Char) :
    List.rdropWhile pyWs l ++ List.rtakeWhile pyWs l = l := by
  unfold List.rdropWhile List.rtakeWhile
  rw [← List.reverse_append, List.takeWhile_append_dropWhile, List.reverse_reverse]

theorem keptOf_rdropWhile (l : List Char) :
    keptOf (List.rdropWhile pyWs l) = keptOf l := by
  conv_rhs => rw [← rdrop_rtake l]
  exact (keptOf_append_ws (List.rtakeWhile pyWs l) (List.rdropWhile pyWs l)
    (fun c hc => List.mem_rtakeWhile_imp hc)).symm

theorem keptOf_pyStrip (l : List Char) : keptOf (pyStrip l) = keptOf l := by
  unfold pyStrip
  rw [keptOf_rdropWhile, keptOf_dropWhile]

theorem trimmedLineOut_ne_nil {t p : List Char} (h : trimmedLineOut t = some p) :
    p ≠ [] := by
  unfold trimmedLineOut at h
  split at h
  · exact absurd h (by simp)
  · split at h
    · exact absurd h (by simp)
    · split at h
      · obtain rfl := Option.some.inj h
        simp
      · exact absurd h (by simp)

theorem joinSemi_eq_nil_iff (ks : List (List Char)) (h : ∀ p ∈ ks, p ≠ []) :
    (joinSemi ks = [] ↔ ks = []) := by
  match ks with
  | [] => simp [joinSemi]
  | [p] =>
    have hp := h p (by simp)
    simp [joinSemi, hp]
  | p :: q :: rest => simp [joinSemi]

theorem keptOf_mem_ne_nil {s p : List Char} (hp : p ∈ keptOf s) : p ≠ [] := by
  unfold keptOf at hp
  obtain ⟨line, _, hline⟩ := List.mem_filterMap.mp hp
  unfold cookieLineOut at hline
  exact trimmedLineOut_ne_nil hline

/-- C1: the cookie parser, applied to any blob, equals the reference
algorithm from the spec (split on newline, trim, discard blank and hash
lines, keep exactly-7-field tab splits, format field 5 = field 6, join
with a semicolon and a space); it returns the empty string exactly when
the input is empty or no line survives filtering. -/
theorem parse_cookies_matches_reference (s : List Char) :
    parse_cookies_for_header s = refParse s ∧
    (parse_cookies_for_header s = [] ↔ (s = [] ∨ refCookieKept s = [])) := by
  have hkept : refCookieKept s = keptOf s := by
    unfold refCookieKept keptOf cookieLineOut
    rw [List.filterMap_map]
    rfl
  by_cases hs : s = []
  · subst hs
    have h0 : parse_cookies_for_header ([] : List Char) = [] := by decide
    exact ⟨by decide, by simp [h0]⟩
  · have hne : s.isEmpty = false := by simp [List.isEmpty_iff, hs]
    have hmain : parse_cookies_for_header s = joinSemi (keptOf s) := by
      unfold parse_cookies_for_header
      rw [hne]
      simp only [Bool.false_eq_true, if_false]
      exact congrArg joinSemi (keptOf_pyStrip s)
    refine ⟨?_, ?_⟩
    · rw [hmain]
      unfold refParse
      rw [hkept]
    · rw [hmain, joinSemi_eq_nil_iff _ (fun p hp => keptOf_mem_ne_nil hp), hkept]
      simp [hs]

example : parse_cookies_for_header "a\tb\tc\td\te\tf\tg".toList = "f=g".toList := by decide
example : parse_cookies_for_header "# x\n \nu\tb\tc\td\te\tname\tvalue\nbad\tline".toList
    = "name=value".toList := by decide
example : parse_cookies_for_header "  ".toList = [] := by decide
example : refParse "a\tb\tc\td\te\tf\tg\nh\tb\tc\td\te\tn\tv".toList = "f=g; n=v".toList := by
  decide

/-- C1 witness: concrete blob evaluated on both parsers. -/
theorem parse_cookies_reference_witness :
    parse_cookies_for_header "a\tb\tc\td\te\tf\tg".toList =
      refParse "a\tb\tc\td\te\tf\tg".toList :=
  (parse_cookies_matches_reference "a\tb\tc\td\te\tf\tg".toList).1

/-- JSON values as produced by `json.loads`, with Python `None` identified
with JSON null.  Numbers are modelled as integers (the ids the handler
reads are integral; the model rejects fractional literals). -/
inductive JVal where
  | null : JVal
  | bool (b : Bool) : JVal
  | num (n : Int) : JVal
  | str (s : List Char) : JVal
  | arr (elems : List JVal) : JVal
  | obj (fields : List (List Char × JVal)) : JVal

/-- Python exceptions that the handler can raise and that
`except requests.exceptions.RequestException` does not catch. -/
inductive PyExc where
  | attributeError : PyExc
  | valueError : PyExc
  | keyError : PyExc
deriving DecidableEq

/-- Dictionary lookup; with duplicate keys the later entry wins, as in a
dict built by `json.loads`. -/
def jGet : List (List Char × JVal) → List Char → Option JVal
  | [], _ => none
  | (k', v) :: rest, k =>
    match jGet rest k with
    | some w => some w
    | none => if k' == k then some v else none

/-- Python `d.get(k, default)`: raises AttributeError when the receiver is
not a dict. -/
def pyGetD (v : JVal) (k : List Char) (d : JVal) : Except PyExc JVal :=
  match v with
  | .obj fs => .ok ((jGet fs k).getD d)
  | _ => .error .attributeError

/-- Python `d.get(k)` with no default: missing key gives `None`. -/
def pyGetN (v : JVal) (k : List Char) : Except PyExc JVal :=
  match v with
  | .obj fs => .ok ((jGet fs k).getD .null)
  | _ => .error .attributeError

/-- A chain of `.get(k, {})` steps ending in a final `.get(k)`, as the
handler writes it on src/main.py lines 97-98. -/
def chainGet : JVal → List (List Char) → Except PyExc JVal
  | v, [] => .ok v
  | v, [k] => pyGetN v k
  | v, k :: k2 :: ks => do
      let a ← pyGetD v k (.obj [])
      chainGet a (k2 :: ks)

/-- Strict nested-path lookup: descends only through objects, `none` when
a key is missing or a non-object is reached. -/
def getPath : JVal → List (List Char) → Option JVal
  | v, [] => some v
  | .obj fs, k :: ks => (jGet fs k).bind (fun w => getPath w ks)
  | _, _ :: _ => none

/-- Whether every key along the path is present, descending only through
objects. -/
def hasPath : JVal → List (List Char) → Bool
  | _, [] => true
  | .obj fs, k :: ks =>
    match jGet fs k with
    | some w => hasPath w ks
    | none => false
  | _, _ :: _ => false

/-- Python truthiness of a JSON value (`if not x`). -/
def pyTruthy : JVal → Bool
  | .null => false
  | .bool b => b
  | .num n => decide (n ≠ 0)
  | .str s => !s.isEmpty
  | .arr xs => !xs.isEmpty
  | .obj fs => !fs.isEmpty

/-- JSON whitespace accepted between tokens. -/
def jsonWs (c : Char) : Bool :=
  c == ' ' || c == '\t' || c == '\n' || c == '\r'

def skipWs (l : List Char) : List Char := List.dropWhile jsonWs l

def hexVal (c : Char) : Option Nat :=
  if '0' ≤ c ∧ c ≤ '9' then some (c.toNat - '0'.toNat)
  else if 'a' ≤ c ∧ c ≤ 'f' then some (c.toNat - 'a'.toNat + 10)
  else if 'A' ≤ c ∧ c ≤ 'F' then some (c.toNat - 'A'.toNat + 10)
  else none

/-- Parse the rest of a JSON string literal after the opening quote;
returns the decoded contents and the input after the closing quote. -/
def parseStringRest : List Char → Option (List Char × List Char)
  | [] => none
  | c :: rest =>
    if c == '"' then some ([], rest)
    else if c == '\\' then
      match rest with
      | [] => none
      | e :: rest2 =>
        if e == 'u' then
          match rest2 with
          | a :: b :: c2 :: d :: rest3 =>
            match hexVal a, hexVal b, hexVal c2, hexVal d with
            | some ha, some hb, some hc, some hd =>
              (parseStringRest rest3).map
                (fun pr => (Char.ofNat (((ha * 16 + hb) * 16 + hc) * 16 + hd) :: pr.1, pr.2))
            | _, _, _, _ => none
          | _ => none
        else
          match
            (if e == '"' then some '"'
             else if e == '\\' then some '\\'
             else if e == '/' then some '/'
             else if e == 'b' then some (Char.ofNat 8)
             else if e == 'f' then some (Char.ofNat 12)
             else if e == 'n' then some '\n'
             else if e == 'r' then some '\r'
             else if e == 't' then some '\t'
             else none) with
          | some d => (parseStringRest rest2).map (fun pr => (d :: pr.1, pr.2))
          | none => none
    else (parseStringRest rest).map (fun pr => (c :: pr.1, pr.2))

def digitsToNat (l : List Char) : Nat :=
  l.foldl (fun acc c => acc * 10 + (c.toNat - '0'.toNat)) 0

/-- Parse an integer JSON number; fractional or exponent forms are outside
the model and fail. -/
def parseNum (l : List Char) : Option (Int × List Char) :=
  let (neg, l') := match l with
    | '-' :: r => (true, r)
    | _ => (false, l)
  let ds := l'.takeWhile (fun c => c.isDigit)
  let rest := l'.dropWhile (fun c => c.isDigit)
  if ds.isEmpty then none
  else match rest with
    | '.' :: _ => none
    | 'e' :: _ => none
    | 'E' :: _ => none
    | _ =>
      let n : Int := Int.ofNat (digitsToNat ds)
      some (if neg then -n else n, rest)

mutual

/-- Fuel-bounded recursive-descent JSON value parsing. -/
def parseVal : Nat → List Char → Option (JVal × List Char)
  | 0, _ => none
  | Nat.succ fuel, l =>
    match skipWs l with
    | [] => none
    | c :: rest =>
      if c == '{' then
        match skipWs rest with
        | '}' :: rest2 => some (.obj [], rest2)
        | other => (parseMembers fuel other).map (fun pr => (.obj pr.1, pr.2))
      else if c == '[' then
        match skipWs rest with
        | ']' :: rest2 => some (.arr [], rest2)
        | other => (parseElems fuel other).map (fun pr => (.arr pr.1, pr.2))
      else if c == '"' then
        (parseStringRest rest).map (fun pr => (.str pr.1, pr.2))
      else if c == 't' then
        match rest with
        | 'r' :: 'u' :: 'e' :: rest2 => some (.bool true, rest2)
        | _ => none
      else if c == 'f' then
        match rest with
        | 'a' :: 'l' :: 's' :: 'e' :: rest2 => some (.bool false, rest2)
        | _ => none
      else if c == 'n' then
        match rest with
        | 'u' :: 'l' :: 'l' :: rest2 => some (.null, rest2)
        | _ => none
      else
        (parseNum (c :: rest)).map (fun pr => (.num pr.1, pr.2))

/-- Parse one or more `"key": value` members followed by a closing brace. -/
def parseMembers : Nat → List Char → Option (List (List Char × JVal) × List Char)
  | 0, _ => none
  | Nat.succ fuel, l =>
    match l with
    | '"' :: rest =>
      match parseStringRest rest with
      | none => none
      | some (key, r1) =>
        match skipWs r1 with
        | ':' :: r2 =>
          match parseVal fuel r2 with
          | none => none
          | some (v, r3) =>
            match skipWs r3 with
            | ',' :: r4 =>
              (parseMembers fuel (skipWs r4)).map
                (fun pr => ((key, v) :: pr.1, pr.2))
            | '}' :: r4 => some ([(key, v)], r4)
            | _ => none
        | _ => none
    | _ => none

/-- Parse one or more array elements followed by a closing bracket. -/
def parseElems : Nat → List Char → Option (List JVal × List Char)
  | 0, _ => none
  | Nat.succ fuel, l =>
    match parseVal fuel l with
    | none => none
    | some (v, r1) =>
      match skipWs r1 with
      | ',' :: r2 => (parseElems fuel r2).map (fun pr => (v :: pr.1, pr.2))
      | ']' :: r2 => some ([v], r2)
      | _ => none

end

/-- `json.loads`: parse a full JSON document, requiring the whole input to
be consumed. -/
def jsonParse (l : List Char) : Option JVal :=
  match parseVal (l.length + 1) l with
  | some (v, rest) => if (skipWs rest).isEmpty then some v else none
  | none => none

/-- The literal opening tag of the pattern on src/main.py line 90. -/
def openTag : List Char :=
  "<script id=\x22__NEXT_DATA__\x22 type=\x22application/json\x22>".toList

/-- The literal closing tag of the same pattern. -/
def closeTag : List Char := "</script>".toList

/-- The lazy capture of the regex at a fixed start position: stop at the
first closing tag; without DOTALL the dot of the pattern cannot cross a
newline, so reaching a newline first fails the match at this position. -/
def captureTo (l : List Char) : Option (List Char) :=
  if closeTag.isPrefixOf l then some []
  else
    match l with
    | [] => none
    | c :: rest =>
      if c == '\n' then none
      else (captureTo rest).map (fun cap => c :: cap)

/-- `re.search` of the pattern on src/main.py line 90: scan start positions
left to right; where the opening tag matches, try the lazy capture up to a
closing tag; on failure resume at the next position. -/
def searchND : List Char → Option (List Char)
  | [] => none
  | c :: rest =>
    if openTag.isPrefixOf (c :: rest) then
      match captureTo (List.drop openTag.length (c :: rest)) with
      | some cap => some cap
      | none => searchND rest
    else searchND rest

/-- Whether `pat` occurs as a contiguous substring of `l`. -/
def containsSub (pat : List Char) : List Char → Bool
  | [] => pat.isPrefixOf ([] : List Char)
  | c :: rest => pat.isPrefixOf (c :: rest) || containsSub pat rest

/-- `iter_content(chunk_size=8192)` over the full body: the relayed chunk
sequence. -/
def iter_content : List Char → List (List Char)
  | [] => []
  | c :: rest => List.take 8192 (c :: rest) :: iter_content (List.drop 8191 rest)
termination_by l => l.length
decreasing_by
  simp only [List.length_drop, List.length_cons]
  omega

/-- An upstream HTTP response to a page GET, as text. -/
structure PageResp where
  status : Nat
  text : List Char
deriving DecidableEq

/-- The download-authorization API response: status and raw JSON body. -/
structure ApiResp where
  status : Nat
  body : List Char
deriving DecidableEq

/-- The direct-file response: status, raw bytes, and the two relayed
headers (absent when the upstream omitted them). -/
structure FileResp where
  status : Nat
  content : List Char
  contentType : Option (List Char)
  contentDisposition : Option (List Char)
deriving DecidableEq

/-- The per-request external world: the cookie blob the store returns
(`none` when the store is unavailable, the document is missing, or the
value field is absent) and the outcome of each possible outbound request
(`none` models a transport exception). -/
structure World where
  cookieBlob : Option (List Char)
  page : Option PageResp
  api : Option ApiResp
  file : Option FileResp

/-- `raise_for_status`: requests raises HTTPError exactly for 4xx and 5xx
status codes. -/
def raisesForStatus (s : Nat) : Bool :=
  decide (400 ≤ s) && decide (s < 600)

/-- What the handler hands back: a structured JSON error with a status, a
streamed file response, or an uncaught Python exception. -/
inductive HandlerResult where
  | json (status : Nat) (error : List Char) : HandlerResult
  | stream (chunks : List (List Char)) (contentType : List Char)
      (contentDisposition : Option (List Char)) : HandlerResult
  | uncaught (e : PyExc) : HandlerResult
deriving DecidableEq

/-- Outbound calls the handler can make, in source order; the embedded
JSON extraction is recorded as well to state the ordering claim. -/
inductive Ev where
  | pageGet : Ev
  | extract : Ev
  | apiPost : Ev
  | fileGet : Ev
deriving DecidableEq

def urlRequiredMsg : List Char := "Freepik URL is required.".toList
def cookieDbMsg : List Char := "Could not retrieve Freepik cookie from database.".toList
def cookieParseMsg : List Char := "Failed to parse cookies.".toList
def pageDataMsg : List Char :=
  "Could not parse page data. Site structure may have changed.".toList
def paramsMsg : List Char := "Could not extract necessary download parameters.".toList
def noLinkMsg : List Char := "Could not get download link from Freepik API.".toList
def upstreamMsg : List Char :=
  "Failed to communicate with Freepik API. Cookies may be expired.".toList

def propsKey : List Char := "props".toList
def pagePropsKey : List Char := "pageProps".toList
def idKey : List Char := "id".toList
def userKey : List Char := "user".toList
def walletKey : List Char := "wallet".toList
def urlKey : List Char := "url".toList

/-- The nested path of the resource id. -/
def ridPath : List (List Char) := [propsKey, pagePropsKey, idKey]

/-- The nested path of the wallet id. -/
def widPath : List (List Char) := [propsKey, pagePropsKey, userKey, walletKey, idKey]

/-- `resource_id` extraction (src/main.py line 97). -/
def resourceIdOf (nd : JVal) : Except PyExc JVal :=
  chainGet nd ridPath

/-- `wallet_id` extraction (src/main.py line 98). -/
def walletIdOf (nd : JVal) : Except PyExc JVal :=
  chainGet nd widPath

/-- src/main.py lines 136-143: stream the direct file.  A missing
content-type header raises KeyError (uncaught); content-disposition is
read with `.get` and passed through as-is. -/
def relayStage (w : World) : HandlerResult × List Ev :=
  match w.file with
  | none => (.json 502 upstreamMsg, [Ev.fileGet])
  | some f =>
    if raisesForStatus f.status then (.json 502 upstreamMsg, [Ev.fileGet])
    else
      match f.contentType with
      | none => (.uncaught .keyError, [Ev.fileGet])
      | some ct => (.stream (iter_content f.content) ct f.contentDisposition, [Ev.fileGet])

/-- src/main.py lines 107-133: the download-authorization POST.  An
invalid JSON body raises the requests JSONDecodeError, a RequestException,
hence the 502 branch. -/
def apiStage (w : World) : HandlerResult × List Ev :=
  match w.api with
  | none => (.json 502 upstreamMsg, [Ev.apiPost])
  | some a =>
    if raisesForStatus a.status then (.json 502 upstreamMsg, [Ev.apiPost])
    else
      match jsonParse a.body with
      | none => (.json 502 upstreamMsg, [Ev.apiPost])
      | some rd =>
        match pyGetN rd urlKey with
        | .error e => (.uncaught e, [Ev.apiPost])
        | .ok u =>
          if pyTruthy u then ((relayStage w).1, Ev.apiPost :: (relayStage w).2)
          else (.json 500 noLinkMsg, [Ev.apiPost])

/-- src/main.py lines 90-104: locate the embedded JSON, parse it, pull the
two ids, and check their truthiness.  `json.loads` failure raises
ValueError (uncaught); `.get` on a non-dict raises AttributeError
(uncaught). -/
def extractStage (w : World) (text : List Char) : HandlerResult × List Ev :=
  match searchND text with
  | none => (.json 500 pageDataMsg, [Ev.extract])
  | some cap =>
    match jsonParse cap with
    | none => (.uncaught .valueError, [Ev.extract])
    | some nd =>
      match resourceIdOf nd with
      | .error e => (.uncaught e, [Ev.extract])
      | .ok rid =>
        match walletIdOf nd with
        | .error e => (.uncaught e, [Ev.extract])
        | .ok wid =>
          if pyTruthy rid && pyTruthy wid then
            ((apiStage w).1, Ev.extract :: (apiStage w).2)
          else (.json 500 paramsMsg, [Ev.extract])

/-- src/main.py lines 86-88: fetch the asset page. -/
def pageStage (w : World) : HandlerResult × List Ev :=
  match w.page with
  | none => (.json 502 upstreamMsg, [Ev.pageGet])
  | some p =>
    if raisesForStatus p.status then (.json 502 upstreamMsg, [Ev.pageGet])
    else ((extractStage w p.text).1, Ev.pageGet :: (extractStage w p.text).2)

/-- The `/download` handler (src/main.py lines 60-150), from the URL check
through cookie fetching and parsing into the resolution chain, paired with
the trace of calls it makes. -/
def download (w : World) (freepikUrl : Option (List Char)) :
    HandlerResult × List Ev :=
  match freepikUrl with
  | none => (.json 400 urlRequiredMsg, [])
  | some url =>
    if url.isEmpty then (.json 400 urlRequiredMsg, [])
    else
      match w.cookieBlob with
      | none => (.json 500 cookieDbMsg, [])
      | some blob =>
        if blob.isEmpty then (.json 500 cookieDbMsg, [])
        else if (parse_cookies_for_header blob).isEmpty then
          (.json 500 cookieParseMsg, [])
        else pageStage w

/-- The login marker scanned for by the verifier (spec 4.3). -/
def loginMarker : List Char := "data-is-user-logged=\x22true\x22".toList

/-- Per-request world of the verifier: the cookie blob and the outcome of
the verification-page GET. -/
structure CheckWorld where
  cookieBlob : Option (List Char)
  page : Option PageResp

/-- Modelled from the spec: the `GET /check-login` endpoint is described
in spec sections 4.3 and 6 but absent from src/.  Cookie fetch or parse
failure gives 500; network failure or a non-2xx verification-page status
gives 502; otherwise the raw HTML is scanned for the login marker, with
200 status success on presence and 401 status error on absence. -/
def check_login (w : CheckWorld) : Nat × List Char :=
  match w.cookieBlob with
  | none => (500, "error".toList)
  | some blob =>
    if blob.isEmpty then (500, "error".toList)
    else if (parse_cookies_for_header blob).isEmpty then (500, "error".toList)
    else
      match w.page with
      | none => (502, "error".toList)
      | some p =>
        if decide (200 ≤ p.status) && decide (p.status < 300) then
          if containsSub loginMarker p.text then (200, "success".toList)
          else (401, "error".toList)
        else (502, "error".toList)

theorem download_reaches_page {w : World} {url blob : List Char}
    (h1 : url.isEmpty = false) (h2 : w.cookieBlob = some blob)
    (h3 : blob.isEmpty = false)
    (h4 : (parse_cookies_for_header blob).isEmpty = false) :
    download w (some url) = pageStage w := by
  simp [download, h1, h2, h3, h4]

theorem pageStage_netErr {w : World} (h : w.page = none) :
    pageStage w = (.json 502 upstreamMsg, [Ev.pageGet]) := by
  simp [pageStage, h]

theorem pageStage_raise {w : World} {p : PageResp} (h : w.page = some p)
    (hr : raisesForStatus p.status = true) :
    pageStage w = (.json 502 upstreamMsg, [Ev.pageGet]) := by
  simp [pageStage, h, hr]

theorem pageStage_ok {w : World} {p : PageResp} (h : w.page = some p)
    (hr : raisesForStatus p.status = false) :
    pageStage w = ((extractStage w p.text).1, Ev.pageGet :: (extractStage w p.text).2) := by
  simp [pageStage, h, hr]

theorem extractStage_noTag {w : World} {t : List Char} (h : searchND t = none) :
    extractStage w t = (.json 500 pageDataMsg, [Ev.extract]) := by
  simp [extractStage, h]

theorem extractStage_params {w : World} {t cap : List Char} {nd rid wid : JVal}
    (h1 : searchND t = some cap) (h2 : jsonParse cap = some nd)
    (h3 : resourceIdOf nd = .ok rid) (h4 : walletIdOf nd = .ok wid)
    (h5 : (pyTruthy rid && pyTruthy wid) = false) :
    extractStage w t = (.json 500 paramsMsg, [Ev.extract]) := by
  simp [extractStage, h1, h2, h3, h4, h5]

theorem extractStage_exc {w : World} {t cap : List Char} {nd : JVal} {e : PyExc}
    (h1 : searchND t = some cap) (h2 : jsonParse cap = some nd)
    (h3 : resourceIdOf nd = .error e ∨
      (∃ rid, resourceIdOf nd = .ok rid ∧ walletIdOf nd = .error e)) :
    extractStage w t = (.uncaught e, [Ev.extract]) := by
  rcases h3 with h3 | ⟨rid, h3, h4⟩
  · simp [extractStage, h1, h2, h3]
  · simp [extractStage, h1, h2, h3, h4]

theorem extractStage_ok {w : World} {t cap : List Char} {nd rid wid : JVal}
    (h1 : searchND t = some cap) (h2 : jsonParse cap = some nd)
    (h3 : resourceIdOf nd = .ok rid) (h4 : walletIdOf nd = .ok wid)
    (h5 : (pyTruthy rid && pyTruthy wid) = true) :
    extractStage w t = ((apiStage w).1, Ev.extract :: (apiStage w).2) := by
  simp [extractStage, h1, h2, h3, h4, h5]

theorem apiStage_ok {w : World} {a : ApiResp} {rd u : JVal}
    (h1 : w.api = some a) (h2 : raisesForStatus a.status = false)
    (h3 : jsonParse a.body = some rd) (h4 : pyGetN rd urlKey = .ok u)
    (h5 : pyTruthy u = true) :
    apiStage w = ((relayStage w).1, Ev.apiPost :: (relayStage w).2) := by
  simp [apiStage, h1, h2, h3, h4, h5]

theorem relayStage_ok {w : World} {f : FileResp} {ct : List Char}
    (h1 : w.file = some f) (h2 : raisesForStatus f.status = false)
    (h3 : f.contentType = some ct) :
    relayStage w = (.stream (iter_content f.content) ct f.contentDisposition, [Ev.fileGet]) := by
  simp [relayStage, h1, h2, h3]

theorem relayStage_noCT {w : World} {f : FileResp}
    (h1 : w.file = some f) (h2 : raisesForStatus f.status = false)
    (h3 : f.contentType = none) :
    relayStage w = (.uncaught .keyError, [Ev.fileGet]) := by
  simp [relayStage, h1, h2, h3]

theorem iter_content_join (l : List Char) : (iter_content l).flatten = l := by
  induction l using iter_content.induct with
  | case1 => rw [iter_content]; rfl
  | case2 c rest ih =>
    rw [iter_content, List.flatten_cons, ih]
    have hd : List.drop 8191 rest = List.drop 8192 (c :: rest) := rfl
    rw [hd, List.take_append_drop]

theorem relayStage_trace (w : World) : (relayStage w).2 = [Ev.fileGet] := by
  unfold relayStage
  split
  · rfl
  · split
    · rfl
    · split <;> rfl

theorem apiStage_trace (w : World) :
    (apiStage w).2 = [Ev.apiPost] ∨
    ((apiStage w).2 = [Ev.apiPost, Ev.fileGet] ∧
      ∃ a, w.api = some a ∧ raisesForStatus a.status = false) := by
  unfold apiStage
  cases ha : w.api with
  | none => left; rfl
  | some a =>
    cases hr : raisesForStatus a.status with
    | true => left; simp [hr]
    | false =>
      simp only [hr, Bool.false_eq_true, if_false]
      cases hj : jsonParse a.body with
      | none => left; simp [hj]
      | some rd =>
        cases hg : pyGetN rd urlKey with
        | error e => left; simp [hj, hg]
        | ok u =>
          cases ht : pyTruthy u with
          | false => left; simp [hj, hg, ht]
          | true =>
            right
            refine ⟨?_, a, rfl, hr⟩
            simp [hj, hg, ht, relayStage_trace]

theorem extractStage_trace (w : World) (t : List Char) :
    (extractStage w t).2 = [Ev.extract] ∨
    ((extractStage w t).2 = Ev.extract :: (apiStage w).2 ∧
      ∃ cap, searchND t = some cap) := by
  unfold extractStage
  cases hs : searchND t with
  | none => left; rfl
  | some cap =>
    cases hj : jsonParse cap with
    | none => left; simp [hj]
    | some nd =>
      cases hrid : resourceIdOf nd with
      | error e => left; simp [hj, hrid]
      | ok rid =>
        cases hwid : walletIdOf nd with
        | error e => left; simp [hj, hrid, hwid]
        | ok wid =>
          cases ht : pyTruthy rid && pyTruthy wid with
          | false => left; simp [hj, hrid, hwid, ht]
          | true =>
            right
            exact ⟨by simp [hj, hrid, hwid, ht], cap, rfl⟩

theorem pageStage_trace (w : World) :
    (pageStage w).2 = [Ev.pageGet] ∨
    (∃ p, w.page = some p ∧ raisesForStatus p.status = false ∧
      (pageStage w).2 = Ev.pageGet :: (extractStage w p.text).2) := by
  unfold pageStage
  cases hp : w.page with
  | none => left; rfl
  | some p =>
    cases hr : raisesForStatus p.status with
    | true => left; simp [hr]
    | false =>
      right
      exact ⟨p, rfl, hr, by simp [hr]⟩

theorem download_trace (w : World) (req : Option (List Char)) :
    (download w req).2 = [] ∨ (download w req).2 = (pageStage w).2 := by
  unfold download
  cases req with
  | none => left; rfl
  | some url =>
    cases hu : url.isEmpty with
    | true => left; simp [hu]
    | false =>
      simp only [hu, Bool.false_eq_true, if_false]
      cases w.cookieBlob with
      | none => left; rfl
      | some blob =>
        cases hb : blob.isEmpty with
        | true => left; simp [hb]
        | false =>
          cases hh : (parse_cookies_for_header blob).isEmpty with
          | true => left; simp [hb, hh]
          | false => right; simp [hb, hh]

theorem hasPath_nil (v : JVal) : hasPath v [] = true := by
  cases v <;> rfl

theorem hasPath_cons_obj (fs : List (List Char × JVal)) (k : List Char)
    (ks : List (List Char)) :
    hasPath (.obj fs) (k :: ks) =
      (match jGet fs k with
       | some w => hasPath w ks
       | none => false) := rfl

theorem chainGet_single_obj (fs : List (List Char × JVal)) (k : List Char) :
    chainGet (.obj fs) [k] = .ok ((jGet fs k).getD .null) := rfl

theorem chainGet_cons_obj (fs : List (List Char × JVal)) (k k2 : List Char)
    (ks : List (List Char)) :
    chainGet (.obj fs) (k :: k2 :: ks) =
      chainGet ((jGet fs k).getD (.obj [])) (k2 :: ks) := rfl

theorem chainGet_empty_obj (ks : List (List Char)) (h : ks ≠ []) :
    chainGet (.obj []) ks = .ok .null := by
  induction ks with
  | nil => exact absurd rfl h
  | cons k ks ih =>
    cases ks with
    | nil => rw [chainGet_single_obj]; rfl
    | cons k2 ks' =>
      rw [chainGet_cons_obj]
      exact ih (by simp)

theorem chainGet_missing (ks : List (List Char)) : ∀ (v r : JVal), ks ≠ [] →
    chainGet v ks = .ok r → hasPath v ks = false → r = .null := by
  induction ks with
  | nil => intro v r h _ _; exact absurd rfl h
  | cons k ks ih =>
    intro v r _ hc hp
    cases ks with
    | nil =>
      cases v with
      | obj fs =>
        rw [chainGet_single_obj] at hc
        cases hj : jGet fs k with
        | some w =>
          rw [hasPath_cons_obj, hj] at hp
          have hp' : hasPath w [] = false := hp
          rw [hasPath_nil] at hp'
          exact absurd hp' (by simp)
        | none =>
          rw [hj, Option.getD_none] at hc
          exact (Except.ok.inj hc).symm
      | null => exact Except.noConfusion hc
      | bool b => exact Except.noConfusion hc
      | num n => exact Except.noConfusion hc
      | str s => exact Except.noConfusion hc
      | arr xs => exact Except.noConfusion hc
    | cons k2 ks' =>
      cases v with
      | obj fs =>
        rw [chainGet_cons_obj] at hc
        cases hj : jGet fs k with
        | some w =>
          rw [hj, Option.getD_some] at hc
          rw [hasPath_cons_obj, hj] at hp
          have hp' : hasPath w (k2 :: ks') = false := hp
          exact ih w r (by simp) hc hp'
        | none =>
          rw [hj, Option.getD_none] at hc
          rw [chainGet_empty_obj (k2 :: ks') (by simp)] at hc
          exact (Except.ok.inj hc).symm
      | null => exact Except.noConfusion hc
      | bool b => exact Except.noConfusion hc
      | num n => exact Except.noConfusion hc
      | str s => exact Except.noConfusion hc
      | arr xs => exact Except.noConfusion hc

theorem getPath_chainGet (ks : List (List Char)) : ∀ (v r : JVal),
    getPath v ks = some r → chainGet v ks = .ok r := by
  induction ks with
  | nil =>
    intro v r h
    simp only [getPath, Option.some.injEq] at h
    simp [chainGet, h]
  | cons k ks ih =>
    intro v r h
    cases v with
    | obj fs =>
      rw [getPath] at h
      obtain ⟨w, hw, hrest⟩ := Option.bind_eq_some.mp h
      cases ks with
      | nil =>
        simp only [getPath, Option.some.injEq] at hrest
        rw [chainGet_single_obj, hw, hrest]
        rfl
      | cons k2 ks' =>
        rw [chainGet_cons_obj, hw, Option.getD_some]
        exact ih w r hrest
    | null => simp [getPath] at h
    | bool b => simp [getPath] at h
    | num n => simp [getPath] at h
    | str s => simp [getPath] at h
    | arr xs => simp [getPath] at h

theorem isPrefixOf_self_append (l t : List Char) : l.isPrefixOf (l ++ t) = true := by
  induction l with
  | nil => simp [List.isPrefixOf]
  | cons c rest ih => simp [List.isPrefixOf, ih]

theorem captureTo_close {l : List Char} (h : closeTag.isPrefixOf l = true) :
    captureTo l = some [] := by
  unfold captureTo
  simp [h]

theorem captureTo_capture (content : List Char) : ∀ post' : List Char,
    '\n' ∉ content →
    (∀ j < content.length,
      closeTag.isPrefixOf (List.drop j (content ++ (closeTag ++ post'))) = false) →
    captureTo (content ++ (closeTag ++ post')) = some content := by
  induction content with
  | nil =>
    intro post' _ _
    rw [List.nil_append]
    exact captureTo_close (isPrefixOf_self_append _ _)
  | cons c content' ih =>
    intro post' hnl hcl
    have h0 : closeTag.isPrefixOf (c :: (content' ++ (closeTag ++ post'))) = false := by
      have := hcl 0 (by simp)
      simpa using this
    have hc : (c == '\n') = false := by
      simp only [beq_eq_false_iff_ne, ne_eq]
      intro hcc
      exact hnl (by simp [hcc])
    have hcl' : ∀ j < content'.length,
        closeTag.isPrefixOf (List.drop j (content' ++ (closeTag ++ post'))) = false := by
      intro j hj
      have := hcl (j + 1) (by simp [hj])
      simpa using this
    rw [List.cons_append]
    unfold captureTo
    rw [h0]
    simp only [Bool.false_eq_true, if_false, hc]
    rw [ih post' (fun hm => hnl (by simp [hm])) hcl']
    rfl

theorem searchND_found {l cap : List Char}
    (h1 : openTag.isPrefixOf l = true)
    (h2 : captureTo (List.drop openTag.length l) = some cap) :
    searchND l = some cap := by
  cases l with
  | nil => exact absurd h1 (by decide)
  | cons c rest => simp [searchND, h1, h2]

theorem searchND_skip {c : Char} {rest : List Char}
    (h1 : openTag.isPrefixOf (c :: rest) = false) :
    searchND (c :: rest) = searchND rest := by
  simp [searchND, h1]

theorem searchND_of_parts (pre : List Char) : ∀ content post : List Char,
    '\n' ∉ content →
    (∀ j < content.length,
      closeTag.isPrefixOf (List.drop j (content ++ (closeTag ++ post))) = false) →
    (∀ i < pre.length,
      openTag.isPrefixOf
        (List.drop i (pre ++ (openTag ++ (content ++ (closeTag ++ post))))) = false) →
    searchND (pre ++ (openTag ++ (content ++ (closeTag ++ post)))) = some content := by
  induction pre with
  | nil =>
    intro content post hnl hcl _
    rw [List.nil_append]
    apply searchND_found (isPrefixOf_self_append _ _)
    rw [List.drop_left]
    exact captureTo_capture content post hnl hcl
  | cons c pre' ih =>
    intro content post hnl hcl hop
    rw [List.cons_append]
    have h0 : openTag.isPrefixOf
        (c :: (pre' ++ (openTag ++ (content ++ (closeTag ++ post))))) = false := by
      have := hop 0 (by simp)
      simpa using this
    rw [searchND_skip h0]
    apply ih content post hnl hcl
    intro i hi
    have := hop (i + 1) (by simp [hi])
    simpa using this

/-- The HTTP status a handler result carries: 200 for a stream, the coded
status of a structured JSON error, nothing for an uncaught exception. -/
def statusOf : HandlerResult → Option Nat
  | .json s _ => some s
  | .stream _ _ _ => some 200
  | .uncaught _ => none

/-- A cookie blob with one valid 7-field record, used as fixture. -/
def blobFix : List Char := "a\tb\tc\td\te\tf\tg".toList

/-- Embedded JSON of the happy path: both ids present and truthy. -/
def ndGoodText : List Char :=
  ("\x7b\x22props\x22:\x7b\x22pageProps\x22:\x7b\x22id\x22:1," ++
   "\x22user\x22:\x7b\x22wallet\x22:\x7b\x22id\x22:2\x7d\x7d\x7d\x7d\x7d").toList

/-- Embedded JSON whose props value is a string: the id paths are absent
and the lookup chain raises. -/
def ndPropsStrText : List Char := "\x7b\x22props\x22: \x22x\x22\x7d".toList

/-- Embedded JSON with a falsy resource id and a non-object user value. -/
def ndIdZeroText : List Char :=
  "\x7b\x22props\x22:\x7b\x22pageProps\x22:\x7b\x22id\x22:0,\x22user\x22:\x22x\x22\x7d\x7d\x7d".toList

/-- Page text wrapping a JSON body in the expected script tag. -/
def pageTextOf (s : List Char) : List Char := openTag ++ (s ++ closeTag)

def apiBodyFix : List Char := "\x7b\x22url\x22: \x22u\x22\x7d".toList

def fileFix : FileResp := ⟨200, "abc".toList, some "t/x".toList, some "att".toList⟩

def wHappy : World :=
  ⟨some blobFix, some ⟨200, pageTextOf ndGoodText⟩, some ⟨200, apiBodyFix⟩, some fileFix⟩

def w304 : World := ⟨some blobFix, some ⟨304, "nope".toList⟩, none, none⟩

def wPropsStr : World := ⟨some blobFix, some ⟨200, pageTextOf ndPropsStrText⟩, none, none⟩

def wIdZero : World := ⟨some blobFix, some ⟨200, pageTextOf ndIdZeroText⟩, none, none⟩

def wNoCookie : World := ⟨none, none, none, none⟩

def wNoCT : World :=
  ⟨some blobFix, some ⟨200, pageTextOf ndGoodText⟩, some ⟨200, apiBodyFix⟩,
    some ⟨200, "abc".toList, none, some "att".toList⟩⟩

/-- C2 counterexample: a 304 page status is not 2xx, yet the handler
returns the structured 500 page-data error, not 502: `raise_for_status`
only raises on 4xx and 5xx, so a 304 proceeds to tag extraction. -/
theorem page_304_gives_500_not_502 :
    ((304 < 200 ∨ 300 ≤ 304) ∧ ¬(400 ≤ 304 ∧ 304 < 600)) ∧
    download w304 (some ['u']) = (.json 500 pageDataMsg, [Ev.pageGet, Ev.extract]) := by
  exact ⟨by omega, by decide⟩

/-- C2 (amended): once the handler reaches the page fetch, a 2xx page
response lacking the script tag yields the 500 page-data error, while a
network failure or a 4xx/5xx page status yields the 502 upstream error;
the two failure kinds are reported distinctly.  (As stated the claim
fails: a non-raising non-2xx status such as 304 proceeds to extraction
like a 2xx, see the counterexample.) -/
theorem page_fetch_error_split {w : World} {url blob : List Char}
    (h1 : url.isEmpty = false) (h2 : w.cookieBlob = some blob)
    (h3 : blob.isEmpty = false)
    (h4 : (parse_cookies_for_header blob).isEmpty = false) :
    (∀ p, w.page = some p → 200 ≤ p.status → p.status < 300 →
      searchND p.text = none →
      (download w (some url)).1 = .json 500 pageDataMsg) ∧
    (w.page = none → (download w (some url)).1 = .json 502 upstreamMsg) ∧
    (∀ p, w.page = some p → 400 ≤ p.status → p.status < 600 →
      (download w (some url)).1 = .json 502 upstreamMsg) := by
  rw [download_reaches_page h1 h2 h3 h4]
  refine ⟨?_, ?_, ?_⟩
  · intro p hp hlo hhi hs
    have hr : raisesForStatus p.status = false := by
      simp only [raisesForStatus, Bool.and_eq_false_iff, decide_eq_false_iff_not]
      omega
    rw [pageStage_ok hp hr, extractStage_noTag hs]
  · intro hn
    rw [pageStage_netErr hn]
  · intro p hp hlo hhi
    have hr : raisesForStatus p.status = true := by
      simp only [raisesForStatus, Bool.and_eq_true, decide_eq_true_eq]
      omega
    rw [pageStage_raise hp hr]

/-- C2 witness at a concrete world: page is a network failure. -/
theorem page_fetch_error_split_witness :
    (download ⟨some blobFix, none, none, none⟩ (some ['u'])).1 = .json 502 upstreamMsg :=
  (@page_fetch_error_split ⟨some blobFix, none, none, none⟩ ['u'] blobFix
    (by decide) rfl (by decide) (by decide)).2.1 rfl

/-- C3: in every run the trace of calls is a prefix of page fetch,
extraction, API POST, file GET; no call repeats; extraction happens only
after a non-raising page response; the API POST happens only after the
script tag was found; the file GET happens only after a non-raising API
response.  Any earlier failure therefore stops the chain. -/
theorem download_call_order (w : World) (req : Option (List Char)) :
    (∃ t, (download w req).2 ++ t = [Ev.pageGet, Ev.extract, Ev.apiPost, Ev.fileGet]) ∧
    (download w req).2.Nodup ∧
    (Ev.extract ∈ (download w req).2 →
      ∃ p, w.page = some p ∧ raisesForStatus p.status = false) ∧
    (Ev.apiPost ∈ (download w req).2 →
      ∃ p cap, w.page = some p ∧ raisesForStatus p.status = false ∧
        searchND p.text = some cap) ∧
    (Ev.fileGet ∈ (download w req).2 →
      ∃ a, w.api = some a ∧ raisesForStatus a.status = false) := by
  rcases download_trace w req with hd | hd <;> rw [hd]
  · exact ⟨⟨[Ev.pageGet, Ev.extract, Ev.apiPost, Ev.fileGet], rfl⟩,
      by simp, by simp, by simp, by simp⟩
  · rcases pageStage_trace w with hp | ⟨p, hp, hpr, hps⟩
    · rw [hp]
      refine ⟨⟨[Ev.extract, Ev.apiPost, Ev.fileGet], rfl⟩, by decide, ?_, ?_, ?_⟩ <;>
        (intro h; simp at h)
    · rw [hps]
      rcases extractStage_trace w p.text with he | ⟨he, cap, hcap⟩
      · rw [he]
        refine ⟨⟨[Ev.apiPost, Ev.fileGet], rfl⟩, by decide,
          fun _ => ⟨p, hp, hpr⟩, ?_, ?_⟩ <;> (intro h; simp at h)
      · rw [he]
        rcases apiStage_trace w with ha | ⟨ha, a, haa, har⟩
        · rw [ha]
          refine ⟨⟨[Ev.fileGet], rfl⟩, by decide,
            fun _ => ⟨p, hp, hpr⟩, fun _ => ⟨p, cap, hp, hpr, hcap⟩, ?_⟩
          intro h; simp at h
        · rw [ha]
          exact ⟨⟨[], by simp⟩, by decide,
            fun _ => ⟨p, hp, hpr⟩, fun _ => ⟨p, cap, hp, hpr, hcap⟩,
            fun _ => ⟨a, haa, har⟩⟩

/-- C3 witness at the happy-path world: the full trace occurs in order. -/
theorem download_call_order_witness :
    ∃ t, (download wHappy (some ['u'])).2 ++ t =
      [Ev.pageGet, Ev.extract, Ev.apiPost, Ev.fileGet] :=
  (download_call_order wHappy (some ['u'])).1

/-- C4: when the handler consults the cookie store and gets nothing, or
the blob parses to an empty header, the response is a 500 and no outbound
request is made. -/
theorem empty_cookies_500_no_outbound {w : World} {url : List Char}
    (h1 : url.isEmpty = false)
    (h2 : w.cookieBlob = none ∨ ∃ blob, w.cookieBlob = some blob ∧
      (blob.isEmpty = true ∨ (parse_cookies_for_header blob).isEmpty = true)) :
    statusOf (download w (some url)).1 = some 500 ∧
    (download w (some url)).2 = [] := by
  unfold download
  simp only [h1, Bool.false_eq_true, if_false]
  rcases h2 with h2 | ⟨blob, h2, h3⟩
  · rw [h2]
    refine ⟨?_, ?_⟩ <;> first | rfl | trivial
  · rw [h2]
    rcases h3 with h3 | h3
    · simp only [h3, if_true]
      refine ⟨?_, ?_⟩ <;> first | rfl | trivial
    · by_cases hb : blob.isEmpty = true
      · simp only [hb, if_true]
        refine ⟨?_, ?_⟩ <;> first | rfl | trivial
      · have hb' : blob.isEmpty = false := by simpa using hb
        simp only [hb', Bool.false_eq_true, if_false, h3, if_true]
        refine ⟨?_, ?_⟩ <;> first | rfl | trivial

/-- C4 witness: absent cookie store value. -/
theorem empty_cookies_witness :
    statusOf (download wNoCookie (some ['u'])).1 = some 500 ∧
    (download wNoCookie (some ['u'])).2 = [] :=
  empty_cookies_500_no_outbound (by decide) (Or.inl rfl)

/-- JSON content with a newline, as __NEXT_DATA__ payloads have in
general. -/
def multilineContent : List Char := "\x7b\x22a\x22:\n1\x7d".toList

/-- C5 counterexample: the pattern has no DOTALL flag, so content that
spans two lines is not captured at all even though the page contains the
script tag with that content. -/
theorem nextData_multiline_cex :
    '\n' ∈ multilineContent ∧
    searchND (openTag ++ (multilineContent ++ closeTag)) = none := by
  exact ⟨by decide, by decide⟩

/-- C5 (amended): when the page contains the opening script tag (its
first occurrence) followed by newline-free content and the closing tag,
the extraction captures exactly that content, up to the first closing
tag, whatever comes before or after.  (As stated the claim fails for
content spanning multiple lines: the dot of the pattern does not match a
newline, see the counterexample.) -/
theorem nextData_extraction_amended (pre content post : List Char)
    (hnl : '\n' ∉ content)
    (hcl : ∀ j < content.length,
      closeTag.isPrefixOf (List.drop j (content ++ (closeTag ++ post))) = false)
    (hop : ∀ i < pre.length,
      openTag.isPrefixOf
        (List.drop i (pre ++ (openTag ++ (content ++ (closeTag ++ post))))) = false) :
    searchND (pre ++ (openTag ++ (content ++ (closeTag ++ post)))) = some content :=
  searchND_of_parts pre content post hnl hcl hop

/-- C5 witness: a small single-line JSON body is captured exactly. -/
theorem nextData_extraction_witness :
    searchND ([] ++ (openTag ++ ("\x7b\x22a\x22:1\x7d".toList ++ (closeTag ++ [])))) =
      some "\x7b\x22a\x22:1\x7d".toList :=
  nextData_extraction_amended [] "\x7b\x22a\x22:1\x7d".toList []
    (by decide) (by decide) (by decide)

/-- The parsed form of `ndPropsStrText`. -/
def ndPropsStr : JVal := .obj [(propsKey, .str ['x'])]

/-- C6 counterexample: the extracted JSON lacks props.pageProps.id (its
props value is a string), yet the handler raises an uncaught
AttributeError instead of returning the structured 500 message; no API
call is made either way. -/
theorem missing_path_nonobject_cex :
    jsonParse ndPropsStrText = some ndPropsStr ∧
    hasPath ndPropsStr ridPath = false ∧
    download wPropsStr (some ['u']) =
      (.uncaught .attributeError, [Ev.pageGet, Ev.extract]) := by
  refine ⟨rfl, rfl, by decide⟩

/-- C6 (amended): if the extracted JSON lacks the resource id path or the
wallet id path while both lookup chains raise no error (every present
intermediate along the paths is an object), the handler returns the 500
missing-parameters message and makes no API call.  (As stated the claim
fails when a present intermediate is not an object: the lookup then
raises an uncaught AttributeError, see the counterexample; no API call is
made in that case either.) -/
theorem missing_ids_500_no_api {w : World} {url blob cap : List Char}
    {p : PageResp} {nd rid wid : JVal}
    (h1 : url.isEmpty = false) (h2 : w.cookieBlob = some blob)
    (h3 : blob.isEmpty = false)
    (h4 : (parse_cookies_for_header blob).isEmpty = false)
    (hp : w.page = some p) (hpr : raisesForStatus p.status = false)
    (hs : searchND p.text = some cap) (hj : jsonParse cap = some nd)
    (hrid : resourceIdOf nd = .ok rid) (hwid : walletIdOf nd = .ok wid)
    (hmiss : hasPath nd ridPath = false ∨ hasPath nd widPath = false) :
    (download w (some url)).1 = .json 500 paramsMsg ∧
    Ev.apiPost ∉ (download w (some url)).2 := by
  have h5 : (pyTruthy rid && pyTruthy wid) = false := by
    rcases hmiss with hm | hm
    · have hr : rid = .null :=
        chainGet_missing ridPath nd rid (by simp [ridPath]) hrid hm
      rw [hr]
      rfl
    · have hr : wid = .null :=
        chainGet_missing widPath nd wid (by simp [widPath]) hwid hm
      rw [hr]
      simp [pyTruthy]
  rw [download_reaches_page h1 h2 h3 h4, pageStage_ok hp hpr,
    extractStage_params hs hj hrid hwid h5]
  exact ⟨rfl, by simp⟩

/-- The parsed form of a page whose ids are absent but whose
intermediates are objects. -/
def ndNoIds : JVal := .obj [(propsKey, .obj [(pagePropsKey, .obj [])])]

def ndNoIdsText : List Char := "\x7b\x22props\x22:\x7b\x22pageProps\x22:\x7b\x7d\x7d\x7d".toList

def wNoIds : World := ⟨some blobFix, some ⟨200, pageTextOf ndNoIdsText⟩, none, none⟩

/-- C6 witness: ids absent with object intermediates gives the 500
message and no API call. -/
theorem missing_ids_witness :
    (download wNoIds (some ['u'])).1 = .json 500 paramsMsg ∧
    Ev.apiPost ∉ (download wNoIds (some ['u'])).2 :=
  missing_ids_500_no_api (by decide) rfl (by decide) (by decide) rfl (by decide)
    rfl rfl rfl rfl (Or.inl rfl)

/-- The parsed form of `ndIdZeroText`. -/
def ndIdZero : JVal :=
  .obj [(propsKey, .obj [(pagePropsKey,
    .obj [(idKey, .num 0), (userKey, .str ['x'])])])]

/-- C9 counterexample: the extracted JSON contains props.pageProps.id
with the falsy value 0, yet the handler raises an uncaught AttributeError
(the wallet lookup hits a non-object user value) instead of returning the
structured 500 message. -/
theorem falsy_id_uncaught_cex :
    jsonParse ndIdZeroText = some ndIdZero ∧
    getPath ndIdZero ridPath = some (.num 0) ∧
    pyTruthy (.num 0) = false ∧
    download wIdZero (some ['u']) =
      (.uncaught .attributeError, [Ev.pageGet, Ev.extract]) := by
  refine ⟨rfl, rfl, rfl, by decide⟩

/-- C9 (amended): if the extracted JSON contains the resource id path or
the wallet id path with a falsy value (0, empty string, null or false)
and both lookup chains raise no error, the handler treats the field as
absent: it returns the 500 missing-parameters message and makes no API
call.  (As stated the claim fails when the other lookup chain hits a
present non-object intermediate: the handler then raises an uncaught
AttributeError, see the counterexample; no API call is made there
either.) -/
theorem falsy_ids_500_no_api {w : World} {url blob cap : List Char}
    {p : PageResp} {nd rid wid : JVal}
    (h1 : url.isEmpty = false) (h2 : w.cookieBlob = some blob)
    (h3 : blob.isEmpty = false)
    (h4 : (parse_cookies_for_header blob).isEmpty = false)
    (hp : w.page = some p) (hpr : raisesForStatus p.status = false)
    (hs : searchND p.text = some cap) (hj : jsonParse cap = some nd)
    (hrid : resourceIdOf nd = .ok rid) (hwid : walletIdOf nd = .ok wid)
    (hfalsy : (∃ rv, getPath nd ridPath = some rv ∧ pyTruthy rv = false) ∨
      (∃ wv, getPath nd widPath = some wv ∧ pyTruthy wv = false)) :
    (download w (some url)).1 = .json 500 paramsMsg ∧
    Ev.apiPost ∉ (download w (some url)).2 := by
  have h5 : (pyTruthy rid && pyTruthy wid) = false := by
    rcases hfalsy with ⟨rv, hrv, hrf⟩ | ⟨wv, hwv, hwf⟩
    · have hcg : chainGet nd ridPath = .ok rv := getPath_chainGet ridPath nd rv hrv
      have hr : rid = rv := Except.ok.inj (hrid.symm.trans hcg)
      rw [hr, hrf]
      rfl
    · have hcg : chainGet nd widPath = .ok wv := getPath_chainGet widPath nd wv hwv
      have hr : wid = wv := Except.ok.inj (hwid.symm.trans hcg)
      rw [hr, hwf]
      simp
  rw [download_reaches_page h1 h2 h3 h4, pageStage_ok hp hpr,
    extractStage_params hs hj hrid hwid h5]
  exact ⟨rfl, by simp⟩

/-- Page JSON with a falsy wallet id but object intermediates. -/
def ndWidZero : JVal :=
  .obj [(propsKey, .obj [(pagePropsKey,
    .obj [(idKey, .num 7), (userKey, .obj [(walletKey, .obj [(idKey, .num 0)])])])])]

def ndWidZeroText : List Char :=
  ("\x7b\x22props\x22:\x7b\x22pageProps\x22:\x7b\x22id\x22:7," ++
   "\x22user\x22:\x7b\x22wallet\x22:\x7b\x22id\x22:0\x7d\x7d\x7d\x7d\x7d").toList

def wWidZero : World := ⟨some blobFix, some ⟨200, pageTextOf ndWidZeroText⟩, none, none⟩

/-- C9 witness: a falsy wallet id with object intermediates gives the 500
message and no API call. -/
theorem falsy_ids_witness :
    (download wWidZero (some ['u'])).1 = .json 500 paramsMsg ∧
    Ev.apiPost ∉ (download wWidZero (some ['u'])).2 :=
  falsy_ids_500_no_api (by decide) rfl (by decide) (by decide) rfl (by decide)
    rfl rfl rfl rfl (Or.inr ⟨.num 0, rfl, rfl⟩)

/-- C7: on the full happy path the response streams the upstream file
bytes (the chunks flatten back to exactly the upstream content) and the
content-type and content-disposition headers are copied verbatim. -/
theorem happy_path_streams_upstream {w : World} {url blob cap : List Char}
    {p : PageResp} {nd rid wid rd u : JVal} {a : ApiResp} {f : FileResp}
    {ct : List Char}
    (h1 : url.isEmpty = false) (h2 : w.cookieBlob = some blob)
    (h3 : blob.isEmpty = false)
    (h4 : (parse_cookies_for_header blob).isEmpty = false)
    (hp : w.page = some p) (hpr : raisesForStatus p.status = false)
    (hs : searchND p.text = some cap) (hj : jsonParse cap = some nd)
    (hrid : resourceIdOf nd = .ok rid) (hwid : walletIdOf nd = .ok wid)
    (ht : (pyTruthy rid && pyTruthy wid) = true)
    (ha : w.api = some a) (har : raisesForStatus a.status = false)
    (haj : jsonParse a.body = some rd) (hu : pyGetN rd urlKey = .ok u)
    (hut : pyTruthy u = true)
    (hf : w.file = some f) (hfr : raisesForStatus f.status = false)
    (hct : f.contentType = some ct) :
    (download w (some url)).1 =
      .stream (iter_content f.content) ct f.contentDisposition ∧
    (iter_content f.content).flatten = f.content := by
  rw [download_reaches_page h1 h2 h3 h4, pageStage_ok hp hpr,
    extractStage_ok hs hj hrid hwid ht, apiStage_ok ha har haj hu hut,
    relayStage_ok hf hfr hct]
  exact ⟨rfl, iter_content_join f.content⟩

/-- C7 witness: the happy-path world streams the upstream bytes with both
headers copied. -/
theorem happy_path_witness :
    (download wHappy (some ['u'])).1 =
      .stream (iter_content fileFix.content) "t/x".toList fileFix.contentDisposition ∧
    (iter_content fileFix.content).flatten = fileFix.content :=
  happy_path_streams_upstream (by decide) rfl (by decide) (by decide) rfl
    (by decide) rfl rfl rfl rfl (by decide) rfl (by decide) rfl rfl (by decide)
    rfl (by decide) rfl

/-- C10: at the relay step, a missing content-type header makes the
handler raise an uncaught KeyError (so the structured 502 transport error
is not produced), while a missing content-disposition header does not
raise: the stream response is built with that header value absent. -/
theorem relay_header_handling {w : World} {url blob cap : List Char}
    {p : PageResp} {nd rid wid rd u : JVal} {a : ApiResp} {f : FileResp}
    (h1 : url.isEmpty = false) (h2 : w.cookieBlob = some blob)
    (h3 : blob.isEmpty = false)
    (h4 : (parse_cookies_for_header blob).isEmpty = false)
    (hp : w.page = some p) (hpr : raisesForStatus p.status = false)
    (hs : searchND p.text = some cap) (hj : jsonParse cap = some nd)
    (hrid : resourceIdOf nd = .ok rid) (hwid : walletIdOf nd = .ok wid)
    (ht : (pyTruthy rid && pyTruthy wid) = true)
    (ha : w.api = some a) (har : raisesForStatus a.status = false)
    (haj : jsonParse a.body = some rd) (hu : pyGetN rd urlKey = .ok u)
    (hut : pyTruthy u = true)
    (hf : w.file = some f) (hfr : raisesForStatus f.status = false) :
    (f.contentType = none → (download w (some url)).1 = .uncaught .keyError) ∧
    (∀ ct, f.contentType = some ct →
      (download w (some url)).1 =
        .stream (iter_content f.content) ct f.contentDisposition) := by
  rw [download_reaches_page h1 h2 h3 h4, pageStage_ok hp hpr,
    extractStage_ok hs hj hrid hwid ht, apiStage_ok ha har haj hu hut]
  constructor
  · intro hct
    rw [relayStage_noCT hf hfr hct]
  · intro ct hct
    rw [relayStage_ok hf hfr hct]

/-- The parsed form of `ndGoodText`. -/
def ndGood : JVal :=
  .obj [(propsKey, .obj [(pagePropsKey,
    .obj [(idKey, .num 1), (userKey, .obj [(walletKey, .obj [(idKey, .num 2)])])])])]

/-- The parsed form of `apiBodyFix`. -/
def rdFix : JVal := .obj [(urlKey, .str ['u'])]

/-- C10 witness: the happy world with the content-type header removed
raises an uncaught KeyError. -/
theorem relay_header_witness :
    (download wNoCT (some ['u'])).1 = .uncaught .keyError :=
  (@relay_header_handling wNoCT ['u'] blobFix ndGoodText ⟨200, pageTextOf ndGoodText⟩
    ndGood (.num 1) (.num 2) rdFix (.str ['u']) ⟨200, apiBodyFix⟩
    ⟨200, "abc".toList, none, some "att".toList⟩
    (by decide) rfl (by decide) (by decide) rfl (by decide) rfl rfl rfl rfl
    (by decide) rfl (by decide) rfl rfl (by decide) rfl (by decide)).1 rfl

theorem containsSub_of_parts (pat pre post : List Char) :
    containsSub pat (pre ++ (pat ++ post)) = true := by
  induction pre with
  | nil =>
    rw [List.nil_append]
    cases hp : pat ++ post with
    | nil =>
      have hpe : pat = [] := by
        cases pat with
        | nil => rfl
        | cons a b => simp at hp
      rw [hpe]
      simp [containsSub, List.isPrefixOf]
    | cons c l =>
      have h1 : pat.isPrefixOf (c :: l) = true := by
        rw [← hp]
        exact isPrefixOf_self_append pat post
      simp only [containsSub, h1, Bool.true_or]
  | cons c pre' ih =>
    rw [List.cons_append]
    simp only [containsSub, ih, Bool.or_true]

/-- C8: modelled from the spec, the /check-login endpoint returns 500
when the cookie blob is absent, empty or yields no header; 502 when the
verification fetch fails or returns a non-2xx status; 200 with status
success when the fetched HTML contains the login marker anywhere; and 401
with status error when it does not. -/
theorem check_login_spec (w : CheckWorld) :
    ((w.cookieBlob = none ∨ ∃ blob, w.cookieBlob = some blob ∧
        (blob.isEmpty = true ∨ (parse_cookies_for_header blob).isEmpty = true)) →
      (check_login w).1 = 500) ∧
    (∀ blob, w.cookieBlob = some blob → blob.isEmpty = false →
      (parse_cookies_for_header blob).isEmpty = false →
      ((w.page = none → (check_login w).1 = 502) ∧
       (∀ p, w.page = some p → ¬(200 ≤ p.status ∧ p.status < 300) →
         (check_login w).1 = 502) ∧
       (∀ p pre post, w.page = some p → 200 ≤ p.status → p.status < 300 →
         p.text = pre ++ (loginMarker ++ post) →
         check_login w = (200, "success".toList)) ∧
       (∀ p, w.page = some p → 200 ≤ p.status → p.status < 300 →
         containsSub loginMarker p.text = false →
         check_login w = (401, "error".toList)))) := by
  constructor
  · intro h2
    unfold check_login
    rcases h2 with h2 | ⟨blob, h2, h3⟩
    · rw [h2]
    · rw [h2]
      rcases h3 with h3 | h3
      · simp [h3]
      · by_cases hb : blob.isEmpty = true
        · simp [hb]
        · have hb' : blob.isEmpty = false := by simpa using hb
          simp [hb', h3]
  · intro blob h2 h3 h4
    have hmain : check_login w =
        (match w.page with
         | none => (502, "error".toList)
         | some p =>
           if decide (200 ≤ p.status) && decide (p.status < 300) then
             if containsSub loginMarker p.text then (200, "success".toList)
             else (401, "error".toList)
           else (502, "error".toList)) := by
      unfold check_login
      rw [h2]
      simp [h3, h4]
    refine ⟨?_, ?_, ?_, ?_⟩
    · intro hn
      rw [hmain, hn]
    · intro p hp hns
      rw [hmain, hp]
      have : (decide (200 ≤ p.status) && decide (p.status < 300)) = false := by
        simp only [Bool.and_eq_false_iff, decide_eq_false_iff_not]
        omega
      simp [this]
    · intro p pre post hp hlo hhi htext
      rw [hmain, hp]
      have hok : (decide (200 ≤ p.status) && decide (p.status < 300)) = true := by
        simp [hlo, hhi]
      have hcs : containsSub loginMarker p.text = true := by
        rw [htext]
        exact containsSub_of_parts loginMarker pre post
      simp [hok, hcs]
    · intro p hp hlo hhi hcs
      rw [hmain, hp]
      have hok : (decide (200 ≤ p.status) && decide (p.status < 300)) = true := by
        simp [hlo, hhi]
      simp [hok, hcs]

/-- C8 witness: marker present in surrounding content gives success. -/
theorem check_login_witness :
    check_login ⟨some blobFix, some ⟨200, "xx".toList ++ (loginMarker ++ "yy".toList)⟩⟩ =
      (200, "success".toList) :=
  ((check_login_spec ⟨some blobFix,
      some ⟨200, "xx".toList ++ (loginMarker ++ "yy".toList)⟩⟩).2 blobFix rfl
    (by decide) (by decide)).2.2.1 ⟨200, "xx".toList ++ (loginMarker ++ "yy".toList)⟩
    "xx".toList "yy".toList rfl (by decide) (by decide) rfl

end Freepik
